import Mathlib

/-
  Verification development for the RAG conversational pipeline
  (src/Agent): document ingestion, chunk caching, response
  post-processing and the conversation log.

  Strings are embedded as List Char, raw bytes as List Nat.
-/

set_option maxRecDepth 10000

/-! ## String helpers (Python semantics) -/

/-- Whitespace characters removed by the Python str.strip() used in
app.py (ASCII whitespace; the further Unicode space characters Python
also strips are outside every input the claims touch). -/
def isPySpace (c : Char) : Bool :=
  c = ' ' || c = '\t' || c = '\n' || c = '\r' || c.toNat = 11 || c.toNat = 12

/-- Python str.strip(): drop leading and trailing whitespace. -/
def strip (l : List Char) : List Char :=
  ((l.dropWhile isPySpace).reverse.dropWhile isPySpace).reverse

/-- Python str.lower(), restricted to ASCII letters (the file-name
suffixes the source compares are ASCII). -/
def pyLower (l : List Char) : List Char :=
  l.map Char.toLower

/-- First occurrence of a (nonempty) literal pattern: returns the text
before the occurrence and the text after it, like the split a regex
match object induces. -/
def splitFirst (pat : List Char) : List Char → Option (List Char × List Char)
  | [] => none
  | c :: rest =>
    if pat.isPrefixOf (c :: rest) then
      some ([], (c :: rest).drop pat.length)
    else
      match splitFirst pat rest with
      | some (pre, post) => some (c :: pre, post)
      | none => none

theorem splitFirst_eq_append {pat : List Char} :
    ∀ {s pre post : List Char}, splitFirst pat s = some (pre, post) →
      s = pre ++ pat ++ post := by
  intro s
  induction s with
  | nil => intro pre post h; simp [splitFirst] at h
  | cons c rest ih =>
    intro pre post h
    simp only [splitFirst] at h
    by_cases hp : pat.isPrefixOf (c :: rest)
    · rw [if_pos hp] at h
      simp only [Option.some.injEq, Prod.mk.injEq] at h
      obtain ⟨t, ht⟩ := List.isPrefixOf_iff_prefix.mp hp
      rw [← h.1, ← h.2, ← ht]
      simp [List.drop_left]
    · rw [if_neg hp] at h
      cases hs : splitFirst pat rest with
      | none => rw [hs] at h; simp at h
      | some pr =>
        rw [hs] at h
        obtain ⟨pre2, post2⟩ := pr
        simp only [Option.some.injEq, Prod.mk.injEq] at h
        have := ih hs
        rw [← h.1, ← h.2]
        simp [this]

theorem splitFirst_length {pat s pre post : List Char}
    (h : splitFirst pat s = some (pre, post)) :
    post.length + pat.length ≤ s.length := by
  have := splitFirst_eq_append h
  subst this
  simp
  omega

/-! ## Response post-processing (App._process_response, app.py 169-176)

The source searches the raw response with the regular expression
pattern given in app.py line 169 (open marker, lazy any-character
group, close marker) and removes every match with re.sub. -/

def openTag : List Char := "<think>".data

def closeTag : List Char := "</think>".data

/-- re.search of the think pattern: the leftmost match of the pattern
is the first open marker followed (anywhere later) by a close marker;
the lazy group is the text strictly between that open marker and the
first close marker after it. Returns the group. -/
def searchThink (s : List Char) : Option (List Char) :=
  match splitFirst openTag s with
  | none => none
  | some (_, afterOpen) =>
    match splitFirst closeTag afterOpen with
    | none => none
    | some (g, _) => some g

/-- Fuel-driven worker for subThink; structural recursion on the fuel
keeps the function kernel-reducible. Each removed match consumes at
least the two marker literals, so fuel equal to the input length is
always sufficient (subThinkAux_congr below). -/
def subThinkAux : Nat → List Char → List Char
  | 0, s => s
  | fuel + 1, s =>
    match splitFirst openTag s with
    | none => s
    | some (pre, afterOpen) =>
      match splitFirst closeTag afterOpen with
      | none => s
      | some (_, afterClose) => pre ++ subThinkAux fuel afterClose

/-- re.sub of the think pattern with the empty replacement: removes
every (non-overlapping, left-to-right) match; scanning resumes after
the end of each removed match. -/
def subThink (s : List Char) : List Char :=
  subThinkAux s.length s

theorem subThinkAux_congr :
    ∀ f1 : Nat, ∀ f2 : Nat, ∀ s : List Char,
      s.length ≤ f1 → s.length ≤ f2 → subThinkAux f1 s = subThinkAux f2 s := by
  intro f1
  induction f1 with
  | zero =>
    intro f2 s h1 _
    have hs : s = [] := List.length_eq_zero.mp (Nat.le_zero.mp h1)
    subst hs
    cases f2 with
    | zero => rfl
    | succ f2 => simp [subThinkAux, splitFirst]
  | succ f1 ih =>
    intro f2 s h1 h2
    cases f2 with
    | zero =>
      have hs : s = [] := List.length_eq_zero.mp (Nat.le_zero.mp h2)
      subst hs
      simp [subThinkAux, splitFirst]
    | succ f2 =>
      cases ho : splitFirst openTag s with
      | none => simp only [subThinkAux, ho]
      | some p1 =>
        obtain ⟨pre, afterOpen⟩ := p1
        cases hc : splitFirst closeTag afterOpen with
        | none => simp only [subThinkAux, ho, hc]
        | some p2 =>
          obtain ⟨g, afterClose⟩ := p2
          have e1 := splitFirst_length ho
          have e2 := splitFirst_length hc
          have l1 : openTag.length = 7 := rfl
          have l2 : closeTag.length = 8 := rfl
          have hlt : afterClose.length ≤ f1 := by omega
          have hlt2 : afterClose.length ≤ f2 := by omega
          simp only [subThinkAux, ho, hc]
          rw [ih f2 afterClose hlt hlt2]

theorem subThink_step {s pre afterOpen g afterClose : List Char}
    (ho : splitFirst openTag s = some (pre, afterOpen))
    (hc : splitFirst closeTag afterOpen = some (g, afterClose)) :
    subThink s = pre ++ subThink afterClose := by
  have e1 := splitFirst_length ho
  have e2 := splitFirst_length hc
  have l1 : openTag.length = 7 := rfl
  have l2 : closeTag.length = 8 := rfl
  have hpos : s.length = (s.length - 1) + 1 := by omega
  unfold subThink
  rw [hpos]
  simp only [subThinkAux, ho, hc]
  rw [subThinkAux_congr (s.length - 1) afterClose.length afterClose (by omega) (by omega)]

theorem subThink_no_open {s : List Char} (ho : splitFirst openTag s = none) :
    subThink s = s := by
  unfold subThink
  cases hl : s.length with
  | zero => rfl
  | succ n => simp [subThinkAux, ho]

theorem subThink_no_close {s pre afterOpen : List Char}
    (ho : splitFirst openTag s = some (pre, afterOpen))
    (hc : splitFirst closeTag afterOpen = none) :
    subThink s = s := by
  have e1 := splitFirst_length ho
  have l1 : openTag.length = 7 := rfl
  have hpos : s.length = (s.length - 1) + 1 := by omega
  unfold subThink
  rw [hpos]
  simp [subThinkAux, ho, hc]

/-- Removal of only the first marker pair, following the words of the
spec (sections 4.6 and 9); stated only so the source behavior
(subThink, which removes every pair) can be compared against the
claim. -/
def subFirstThink (s : List Char) : List Char :=
  match splitFirst openTag s with
  | none => s
  | some (pre, afterOpen) =>
    match splitFirst closeTag afterOpen with
    | none => s
    | some (_, afterClose) => pre ++ afterClose

/-- app.py 169-176: on a match, the reasoning is the stripped group and
the visible answer is the raw response with every match removed, then
stripped; on no match the reasoning is absent and the answer is the
raw response unchanged. Returns (answer, reasoning). -/
def parseResponse (response : List Char) : List Char × Option (List Char) :=
  match searchThink response with
  | some g => (strip (subThink response), some (strip g))
  | none => (response, none)

/-- The parse test vector of section 8 of the spec, validating the
embedding of the response parser on the one-pair case. -/
theorem parse_test_vector : parseResponse "<think>abc</think>answer".data
    = ("answer".data, some "abc".data) := by decide

/-! ## MD5 and the cache key
(DocumentProcessor._get_cache_path, document_processor.py 49-58)

The source computes hashlib.md5(file_content + file_name.encode())
and uses the hex digest as the cache key. MD5 (RFC 1321) is embedded
below over byte lists, with 32-bit words as Nat reduced mod 2 to the
32. -/

def m32 (n : Nat) : Nat := n % 4294967296

/-- 32-bit left rotation; the two shifted parts occupy disjoint bit
ranges, so their sum equals their bitwise or. -/
def rotl32 (x c : Nat) : Nat := m32 (x * 2 ^ c) + x / 2 ^ (32 - c)

def md5K : List Nat :=
  [0xd76aa478, 0xe8c7b756, 0x242070db, 0xc1bdceee,
   0xf57c0faf, 0x4787c62a, 0xa8304613, 0xfd469501,
   0x698098d8, 0x8b44f7af, 0xffff5bb1, 0x895cd7be,
   0x6b901122, 0xfd987193, 0xa679438e, 0x49b40821,
   0xf61e2562, 0xc040b340, 0x265e5a51, 0xe9b6c7aa,
   0xd62f105d, 0x02441453, 0xd8a1e681, 0xe7d3fbc8,
   0x21e1cde6, 0xc33707d6, 0xf4d50d87, 0x455a14ed,
   0xa9e3e905, 0xfcefa3f8, 0x676f02d9, 0x8d2a4c8a,
   0xfffa3942, 0x8771f681, 0x6d9d6122, 0xfde5380c,
   0xa4beea44, 0x4bdecfa9, 0xf6bb4b60, 0xbebfbc70,
   0x289b7ec6, 0xeaa127fa, 0xd4ef3085, 0x04881d05,
   0xd9d4d039, 0xe6db99e5, 0x1fa27cf8, 0xc4ac5665,
   0xf4292244, 0x432aff97, 0xab9423a7, 0xfc93a039,
   0x655b59c3, 0x8f0ccc92, 0xffeff47d, 0x85845dd1,
   0x6fa87e4f, 0xfe2ce6e0, 0xa3014314, 0x4e0811a1,
   0xf7537e82, 0xbd3af235, 0x2ad7d2bb, 0xeb86d391]

def md5S : List Nat :=
  [7, 12, 17, 22, 7, 12, 17, 22, 7, 12, 17, 22, 7, 12, 17, 22,
   5, 9, 14, 20, 5, 9, 14, 20, 5, 9, 14, 20, 5, 9, 14, 20,
   4, 11, 16, 23, 4, 11, 16, 23, 4, 11, 16, 23, 4, 11, 16, 23,
   6, 10, 15, 21, 6, 10, 15, 21, 6, 10, 15, 21, 6, 10, 15, 21]

structure MD5State where
  a : Nat
  b : Nat
  c : Nat
  d : Nat
deriving DecidableEq

def md5Init : MD5State := ⟨0x67452301, 0xefcdab89, 0x98badcfe, 0x10325476⟩

/-- One of the 64 MD5 operations on one message block M (16 words). -/
def md5Op (M : List Nat) (st : MD5State) (i : Nat) : MD5State :=
  let nb : Nat := 4294967295
  let fg : Nat × Nat :=
    if i < 16 then
      (Nat.lor (Nat.land st.b st.c) (Nat.land (nb - st.b) st.d), i)
    else if i < 32 then
      (Nat.lor (Nat.land st.d st.b) (Nat.land (nb - st.d) st.c), (5 * i + 1) % 16)
    else if i < 48 then
      (Nat.xor st.b (Nat.xor st.c st.d), (3 * i + 5) % 16)
    else
      (Nat.xor st.c (Nat.lor st.b (nb - st.d)), (7 * i) % 16)
  let f := m32 (fg.1 + st.a + md5K.getD i 0 + M.getD fg.2 0)
  ⟨st.d, m32 (st.b + rotl32 f (md5S.getD i 0)), st.b, st.c⟩

def md5Block (st : MD5State) (M : List Nat) : MD5State :=
  let r := (List.range 64).foldl (md5Op M) st
  ⟨m32 (st.a + r.a), m32 (st.b + r.b), m32 (st.c + r.c), m32 (st.d + r.d)⟩

/-- Little-endian bytes of a word (count bytes). -/
def leBytes : Nat → Nat → List Nat
  | _, 0 => []
  | n, k + 1 => n % 256 :: leBytes (n / 256) k

/-- Group a byte list into 32-bit little-endian words. -/
def leWords : List Nat → List Nat
  | b0 :: b1 :: b2 :: b3 :: rest =>
    (b0 + 256 * b1 + 65536 * b2 + 16777216 * b3) :: leWords rest
  | _ => []

/-- Bit length reduced to 64 bits, as the format stores it. -/
def m64bits (byteLen : Nat) : Nat := (8 * byteLen) % 18446744073709551616

/-- MD5 padding: a 0x80 byte, zeros to 56 mod 64, then the bit length
as a 64-bit little-endian quantity. -/
def md5Pad (msg : List Nat) : List Nat :=
  let zeros := (56 + 64 - (msg.length + 1) % 64) % 64
  msg ++ [0x80] ++ List.replicate zeros 0 ++ leBytes (m64bits msg.length) 8

/-- Fuel-driven 64-byte blocking (fuel equal to the list length always
suffices, since every step consumes at least one byte); structural
recursion keeps it kernel-reducible. -/
def chunksAux : Nat → List Nat → List (List Nat)
  | _, [] => []
  | 0, l => [l]
  | fuel + 1, b :: rest => (b :: rest).take 64 :: chunksAux fuel ((b :: rest).drop 64)

def chunks64 (l : List Nat) : List (List Nat) := chunksAux l.length l

/-- MD5 digest (16 bytes) of a byte list. -/
def md5Bytes (msg : List Nat) : List Nat :=
  let st := (chunks64 (md5Pad msg)).foldl (fun s blk => md5Block s (leWords blk)) md5Init
  leBytes st.a 4 ++ leBytes st.b 4 ++ leBytes st.c 4 ++ leBytes st.d 4

def hexDigitChar (n : Nat) : Char := "0123456789abcdef".data.getD n '0'

/-- hashlib hexdigest: two lowercase hex digits per byte. -/
def hexdigest (bytes : List Nat) : List Char :=
  (bytes.map (fun b => [hexDigitChar (b / 16), hexDigitChar (b % 16)])).flatten

/-- Python str.encode(): UTF-8 bytes of a string. -/
def utf8EncodeChar (c : Char) : List Nat :=
  let n := c.toNat
  if n < 128 then [n]
  else if n < 2048 then [192 + n / 64, 128 + n % 64]
  else if n < 65536 then [224 + n / 4096, 128 + (n / 64) % 64, 128 + n % 64]
  else [240 + n / 262144, 128 + (n / 4096) % 64, 128 + (n / 64) % 64, 128 + n % 64]

def utf8Encode (s : List Char) : List Nat :=
  (s.map utf8EncodeChar).flatten

/-- document_processor.py line 56: the cache key is the MD5 hex digest
of the file bytes concatenated with the UTF-8 encoded file name. -/
def cache_key (file_content : List Nat) (file_name : List Char) : List Char :=
  hexdigest (md5Bytes (file_content ++ utf8Encode file_name))

/-- document_processor.py lines 49-58: the cache file path places the
key between the cache directory and the json suffix. -/
def get_cache_path (file_content : List Nat) (file_name : List Char) : List Char :=
  ".cache/".data ++ cache_key file_content file_name ++ ".json".data

/-- RFC 1321 test vector, validating the MD5 embedding. -/
theorem md5_test_abc :
    hexdigest (md5Bytes ("abc".data.map Char.toNat)) =
      "900150983cd24fb0d6963f7d28e17f72".data := by decide

/-! ## Data model -/

/-- langchain Document as the source uses it: page text plus a
string-to-string metadata mapping. -/
structure Doc where
  page_content : List Char
  metadata : List (List Char × List Char)
deriving DecidableEq

/-- Python control flow of a call that can raise: a value or an
exception message. -/
inductive Outcome (α : Type) where
  | ok (val : α)
  | raised (msg : List Char)
deriving DecidableEq

/-- The chunk cache keyed by cache_key: the source stores one json
file per key under the cache directory; a key is a hit when its file
exists and deserializes. -/
abbrev Cache := List (List Char × List Doc)

def cacheLookup (cache : Cache) (key : List Char) : Option (List Doc) :=
  match cache with
  | [] => none
  | (k, v) :: rest => if k = key then some v else cacheLookup rest key

def cacheInsert (cache : Cache) (key : List Char) (docs : List Doc) : Cache :=
  cache ++ [(key, docs)]

/-! ## DocumentProcessor (document_processor.py)

External collaborators are parameters: loadPdf embeds PyPDFLoader
(bytes written to a temporary file, loaded to page documents; may
raise), split embeds the langchain RecursiveCharacterTextSplitter
instance built in the constructor, decode embeds bytes.decode with
utf-8 (None on invalid bytes, which raises in the source). -/

structure ProcEnv where
  loadPdf : List Nat → Outcome (List Doc)
  split : List Doc → List Doc
  decode : List Nat → Option (List Char)

/-- document_processor.py 95-133 (DocumentProcessor._process_pdf):
cache lookup by key; on a hit return the cached documents; on a miss
load the pages, split them, and save to the cache only when the split
result is nonempty. Returns the documents and the cache after the
call. -/
def process_pdf (env : ProcEnv) (cache : Cache) (file_content : List Nat)
    (file_name : List Char) : Outcome (List Doc × Cache) :=
  let key := cache_key file_content file_name
  match cacheLookup cache key with
  | some docs => .ok (docs, cache)
  | none =>
    match env.loadPdf file_content with
    | .raised e => .raised e
    | .ok pages =>
      let split_docs := env.split pages
      if split_docs.isEmpty then .ok (split_docs, cache)
      else .ok (split_docs, cacheInsert cache key split_docs)

def isPdfName (name : List Char) : Bool := ".pdf".data.isSuffixOf (pyLower name)

def isTxtName (name : List Char) : Bool := ".txt".data.isSuffixOf (pyLower name)

/-- Result of DocumentProcessor.process_file: either plain text or a
document list (Union[str, List[Document]] in the source). -/
inductive FileResult where
  | textContent (s : List Char)
  | docList (l : List Doc)
deriving DecidableEq

def joinSep (sep : List Char) (parts : List (List Char)) : List Char :=
  List.intercalate sep parts

/-- document_processor.py 150-183 (DocumentProcessor.process_file),
for an input resolved to (bytes, name); isUpload records whether the
argument was a streamlit upload object (which has getvalue). A pdf
name runs the cached pdf pipeline (joined to one text for uploads); a
txt name only decodes the bytes, touching neither the splitter nor
the cache; any other name returns the unsupported-type message.
Exceptions are re-raised with the failure prefix of line 183. -/
def process_file (env : ProcEnv) (isUpload : Bool) (cache : Cache)
    (file_content : List Nat) (file_name : List Char) :
    Outcome (FileResult × Cache) :=
  if isPdfName file_name then
    match process_pdf env cache file_content file_name with
    | .raised e => .raised ("处理文件失败: ".data ++ e)
    | .ok (docs, cache2) =>
      if isUpload then
        .ok (.textContent (joinSep "\n\n".data (docs.map Doc.page_content)), cache2)
      else
        .ok (.docList docs, cache2)
  else if isTxtName file_name then
    match env.decode file_content with
    | some s => .ok (.textContent s, cache)
    | none => .raised ("处理文件失败: ".data ++ "utf-8 decode error".data)
  else
    .ok (.textContent ("不支持的文件类型: ".data ++ file_name), cache)

/-! ## Batch upload (UIComponents.render_document_upload,
ui_components.py 138-160)

Each uploaded file with a name not yet in the processed list is
handed to process_file inside try/except: on success the result is
appended to all_docs (a text result wrapped in one Document with the
source metadata) and the name appended to the processed list; an
exception is reported for that file and the loop continues; a name
already processed only reports a warning. -/

structure UploadedFile where
  name : List Char
  content : List Nat
deriving DecidableEq

inductive Report where
  | success (name : List Char)
  | failure (name msg : List Char)
  | alreadyProcessed (name : List Char)
deriving DecidableEq

structure BatchState where
  processed : List (List Char)
  all_docs : List Doc
  cache : Cache
  reports : List Report
  /-- Ghost instrumentation: names of the files actually handed to
  process_file, recording which files get (re)processed. -/
  calls : List (List Char)
deriving DecidableEq

def addReport (st : BatchState) (r : Report) : BatchState :=
  { st with reports := st.reports ++ [r] }

def process_batch (env : ProcEnv) (st : BatchState) :
    List UploadedFile → BatchState
  | [] => st
  | f :: rest =>
    let st2 :=
      if st.processed.contains f.name then
        addReport st (.alreadyProcessed f.name)
      else
        match process_file env true st.cache f.content f.name with
        | .raised e =>
          addReport { st with calls := st.calls ++ [f.name] } (.failure f.name e)
        | .ok (res, cache2) =>
          let docs2 :=
            match res with
            | .docList l => st.all_docs ++ l
            | .textContent s => st.all_docs ++ [⟨s, [("source".data, f.name)]⟩]
          addReport
            { processed := st.processed ++ [f.name]
              all_docs := docs2
              cache := cache2
              reports := st.reports
              calls := st.calls ++ [f.name] }
            (.success f.name)
    process_batch env st2 rest

/-! ## RAGAgent (models/agent.py 80-100)

run builds one of two prompt texts from the user prompt and the
optional context. The external model invocation (agno Agent over
Ollama) is a parameter that may raise. -/

/-- agent.py 93: the context-augmented prompt template. -/
def ragModePrompt (context prompt : List Char) : List Char :=
  "【检索内容】\n".data ++ context ++ "\n\n【用户问题】\n".data ++ prompt
    ++ "\n\n请严格按照【检索内容】作答。但如果是询问天气相关信息，请直接使用query_weather工具获取实时天气数据。".data

/-- agent.py 96: the plain (no-context) prompt template. -/
def plainModePrompt (prompt : List Char) : List Char :=
  "【用户问题】\n".data ++ prompt
    ++ "\n\n请提供准确、有帮助的回答。如果用户询问天气，请使用query_weather工具。".data

/-- agent.py 91-96: context equal to None or the empty string selects
the plain template (Python truthiness of the if on line 91); any
nonempty context selects the context-augmented template. -/
def fullPrompt (prompt : List Char) (context : Option (List Char)) : List Char :=
  match context with
  | some c => if c.isEmpty then plainModePrompt prompt else ragModePrompt c prompt
  | none => plainModePrompt prompt

/-- The plain-mode template in the words of section 6 of the spec,
stated only to compare the source template against the claim. -/
def specPlainTemplate (prompt : List Char) : List Char :=
  "[User question]\n".data ++ prompt
    ++ "\n\nProvide an accurate, helpful answer.".data

/-! ## Conversation state (app.py 105-184)

ChatHistoryManager (utils/chat_history.py) and VectorStoreService
(services/vector_store.py) are not under src/ and are modelled from
the spec where the claims need them. -/

inductive Role where
  | user
  | assistant
  | assistantThink
  | retrievedDoc
deriving DecidableEq

/-- Message content: plain text for user, assistant and reasoning
messages; the ordered chunk-text list for a retrieved_doc message. -/
inductive Content where
  | text (s : List Char)
  | texts (l : List (List Char))
deriving DecidableEq

/-- Modelled from the spec: utils/chat_history.py
(ChatHistoryManager) is not under src/. Section 4.7: addMessage
appends a role/content/timestamp record to the append-only ordered
sequence; the timestamp plays no part in any claim and is omitted. -/
structure Message where
  role : Role
  content : Content
deriving DecidableEq

/-- Modelled from the spec: utils/chat_history.py add_message appends
one message to the log and mutates nothing else. -/
def addMessage (log : List Message) (role : Role) (content : Content) : List Message :=
  log ++ [⟨role, content⟩]

/-- Modelled from the spec: services/vector_store.py
(VectorStoreService.get_context) is not under src/. Section 4.5
CONTEXT_READY joins the retrieved chunk texts in ranked order into a
single context block, and zero retrieved entries give the empty
context. -/
def getContext (docs : List Doc) : List Char :=
  joinSep "\n\n".data (docs.map Doc.page_content)

/-- app.py 183: the contents of the retrieved documents, in order. -/
def docContents (docs : List Doc) : List (List Char) :=
  docs.map Doc.page_content

/-- app.py 163-184 (App._process_response): parse the raw response,
append the assistant answer, append the reasoning as assistant_think
when it is truthy (present and nonempty), and append the retrieved
document contents when docs is truthy (present and nonempty). -/
def process_response (log : List Message) (response : List Char)
    (docs : Option (List Doc)) : List Message :=
  let parsed := parseResponse response
  let log1 := addMessage log .assistant (.text parsed.1)
  let log2 :=
    match parsed.2 with
    | some t => if t.isEmpty then log1 else addMessage log1 .assistantThink (.text t)
    | none => log1
  match docs with
  | some ds => if ds.isEmpty then log2 else addMessage log2 .retrievedDoc (.texts (docContents ds))
  | none => log2

/-- app.py 122-143 (App._process_rag_query). The similarity search
and the model invocation are external calls that may raise; the
search result (already threshold-filtered and ranked by the vector
store) and the model are parameters. Modelled from the spec:
utils/decorators.py (error_handler) is not under src/; section 7 has
a failure abort the turn only, reported without terminating the
session, so a raised step leaves the log as it stood. -/
def process_rag_query (infer : List Char → Outcome (List Char))
    (log : List Message) (prompt : List Char)
    (search : Outcome (List Doc)) : List Message :=
  match search with
  | .raised _ => log
  | .ok docs =>
    match infer (fullPrompt prompt (some (getContext docs))) with
    | .raised _ => log
    | .ok response => process_response log response (some docs)

/-- app.py 149-159 (App._process_simple_query). -/
def process_simple_query (infer : List Char → Outcome (List Char))
    (log : List Message) (prompt : List Char) : List Message :=
  match infer (fullPrompt prompt none) with
  | .raised _ => log
  | .ok response => process_response log response none

/-- app.py 105-116 (App.process_user_input): the user message is
appended first, then the RAG or the plain query runs. -/
def process_user_input (infer : List Char → Outcome (List Char))
    (rag_enabled : Bool) (log : List Message) (prompt : List Char)
    (search : Outcome (List Doc)) : List Message :=
  let log2 := addMessage log .user (.text prompt)
  if rag_enabled then process_rag_query infer log2 prompt search
  else process_simple_query infer log2 prompt

/-! ## Helper lemmas -/

theorem splitFirst_skip (pat : List Char) (hpat : pat.head? = some '<') :
    ∀ x : List Char, ∀ r : List Char, '<' ∉ x →
      splitFirst pat (x ++ (pat ++ r)) = some (x, r) := by
  intro x
  induction x with
  | nil =>
    intro r _
    obtain ⟨p, ps, rfl⟩ : ∃ p ps, pat = p :: ps := by
      cases pat with
      | nil => simp at hpat
      | cons p ps => exact ⟨p, ps, rfl⟩
    simp only [List.nil_append, List.cons_append, List.append_eq, splitFirst]
    rw [if_pos]
    · rw [← List.cons_append, List.drop_left]
    · rw [← List.cons_append]
      exact List.isPrefixOf_iff_prefix.mpr (List.prefix_append _ _)
  | cons c x ih =>
    intro r hx
    have hc : c ≠ '<' := fun h => hx (h ▸ List.mem_cons_self c x)
    have hx2 : '<' ∉ x := fun h => hx (List.mem_cons_of_mem c h)
    obtain ⟨p, ps, hpat2⟩ : ∃ p ps, pat = p :: ps := by
      cases pat with
      | nil => simp at hpat
      | cons p ps => exact ⟨p, ps, rfl⟩
    have hp : p = '<' := by rw [hpat2] at hpat; simpa using hpat
    simp only [List.cons_append, List.append_eq, splitFirst]
    have hnp : ¬ (pat.isPrefixOf (c :: (x ++ (pat ++ r))) = true) := by
      rw [hpat2]
      simp only [List.isPrefixOf, Bool.and_eq_true, beq_iff_eq]
      rintro ⟨h1, _⟩
      exact hc (hp ▸ h1.symm)
    rw [if_neg hnp, ih r hx2]

theorem splitFirst_none_of_no_lt (pat : List Char) (hpat : pat.head? = some '<') :
    ∀ s : List Char, '<' ∉ s → splitFirst pat s = none := by
  intro s
  induction s with
  | nil => intro _; rfl
  | cons c s ih =>
    intro hs
    have hc : c ≠ '<' := fun h => hs (h ▸ List.mem_cons_self c s)
    have hs2 : '<' ∉ s := fun h => hs (List.mem_cons_of_mem c h)
    obtain ⟨p, ps, hpat2⟩ : ∃ p ps, pat = p :: ps := by
      cases pat with
      | nil => simp at hpat
      | cons p ps => exact ⟨p, ps, rfl⟩
    have hp : p = '<' := by rw [hpat2] at hpat; simpa using hpat
    simp only [splitFirst]
    have hnp : ¬ (pat.isPrefixOf (c :: s) = true) := by
      rw [hpat2]
      simp only [List.isPrefixOf, Bool.and_eq_true, beq_iff_eq]
      rintro ⟨h1, _⟩
      exact hc (hp ▸ h1.symm)
    rw [if_neg hnp, ih hs2]

/-- The assistant_think portion of one turn, as app.py 180-181 appends
it: present exactly when the parsed reasoning is present and
nonempty. -/
def thinkTail (reasoning : Option (List Char)) : List Message :=
  match reasoning with
  | some t => if t.isEmpty then [] else [⟨.assistantThink, .text t⟩]
  | none => []

/-- The retrieved_doc portion of one turn, as app.py 182-184 appends
it: present exactly when docs is present and nonempty. -/
def docsTail (docs : Option (List Doc)) : List Message :=
  match docs with
  | some ds => if ds.isEmpty then [] else [⟨.retrievedDoc, .texts (docContents ds)⟩]
  | none => []

theorem process_response_shape (log : List Message) (raw : List Char)
    (docs : Option (List Doc)) :
    process_response log raw docs =
      log ++ ([⟨.assistant, .text (parseResponse raw).1⟩]
        ++ (thinkTail (parseResponse raw).2 ++ docsTail docs)) := by
  simp only [process_response, thinkTail, docsTail, addMessage]
  cases hp : (parseResponse raw).2 with
  | none =>
    cases docs with
    | none => simp
    | some ds =>
      by_cases hds : ds.isEmpty <;> simp [hds]
  | some t =>
    by_cases ht : t.isEmpty
    · cases docs with
      | none => simp [ht]
      | some ds => by_cases hds : ds.isEmpty <;> simp [ht, hds]
    · cases docs with
      | none => simp [ht]
      | some ds => by_cases hds : ds.isEmpty <;> simp [ht, hds]

/-! ## Claim C9 -/

/-- Claim C9, counterexample: for a raw response with no marker pair
and surrounding whitespace, the source returns the answer unchanged
(app.py 176 does not strip on the no-match branch), so the visible
answer does not equal the trimmed raw response as the claim states. -/
theorem c9_counterexample :
    parseResponse " hello ".data = (" hello ".data, none) ∧
      " hello ".data ≠ strip " hello ".data := by decide

/-- Claim C9 (amended): for every raw response containing no
reasoning-marker pair, post-processing produces no reasoning segment
and the visible answer equals the raw response unchanged (without any
trimming). -/
theorem c9_no_marker (raw : List Char) (h : searchThink raw = none) :
    parseResponse raw = (raw, none) := by
  simp only [parseResponse, h]

/-- Witness for c9_no_marker at a concrete marker-free response. -/
theorem c9_witness :
    parseResponse "no markers here".data = ("no markers here".data, none) :=
  c9_no_marker "no markers here".data (by decide)

/-! ## Claim C10 -/

/-- Claim C10: when the first marker pair encloses only whitespace,
the marked segments are still removed from the visible answer, but
the stripped reasoning is empty and therefore falsy, so no
assistant_think message is appended: the appended messages are the
assistant answer and, when docs were retrieved, the retrieved_doc
message. -/
theorem c10_whitespace_reasoning (log : List Message) (raw : List Char)
    (docs : Option (List Doc)) (g : List Char)
    (hfind : searchThink raw = some g) (hws : strip g = []) :
    process_response log raw docs =
      log ++ ([⟨.assistant, .text (strip (subThink raw))⟩] ++ docsTail docs) := by
  have hp : parseResponse raw = (strip (subThink raw), some (strip g)) := by
    simp only [parseResponse, hfind]
  rw [process_response_shape, hp]
  simp [thinkTail, hws]

/-- Witness for c10_whitespace_reasoning at a concrete response whose
first pair holds only whitespace. -/
theorem c10_witness :
    process_response [] "<think> \n </think>ok".data none =
      [⟨Role.assistant, Content.text "ok".data⟩] := by
  have h := c10_whitespace_reasoning [] "<think> \n </think>ok".data none
    " \n ".data (by decide) (by decide)
  exact h.trans (by decide)

/-! ## Claim C2 -/

/-- Claim C2, counterexample: on a response with two marker pairs the
reasoning is indeed the first group, but re.sub in app.py 173 removes
every pair, so the second pair is not left inside the answer: the
answer is the concatenation of the plain segments, not the trimmed
first-only removal the claim describes. -/
theorem c2_counterexample :
    parseResponse "<think>a</think>x<think>b</think>y".data
        = ("xy".data, some "a".data) ∧
      strip (subFirstThink "<think>a</think>x<think>b</think>y".data)
        = "x<think>b</think>y".data ∧
      ("xy".data : List Char) ≠ "x<think>b</think>y".data := by decide

/-- Claim C2 (amended): for a response carrying two marker pairs (the
free segments containing no marker-opening character), the reasoning
honors only the first pair, but the visible answer has both marked
segments removed, not just the first. -/
theorem c2_all_pairs_removed (x g1 y g2 z : List Char)
    (hx : '<' ∉ x) (hg1 : '<' ∉ g1) (hy : '<' ∉ y) (hg2 : '<' ∉ g2)
    (hz : '<' ∉ z) :
    parseResponse
        (x ++ (openTag ++ (g1 ++ (closeTag ++ (y ++ (openTag ++ (g2 ++ (closeTag ++ z))))))))
      = (strip (x ++ (y ++ z)), some (strip g1)) := by
  have h1 := splitFirst_skip openTag (by decide) x
    (g1 ++ (closeTag ++ (y ++ (openTag ++ (g2 ++ (closeTag ++ z)))))) hx
  have h2 := splitFirst_skip closeTag (by decide) g1
    (y ++ (openTag ++ (g2 ++ (closeTag ++ z)))) hg1
  have h3 := splitFirst_skip openTag (by decide) y
    (g2 ++ (closeTag ++ z)) hy
  have h4 := splitFirst_skip closeTag (by decide) g2 z hg2
  have h5 := splitFirst_none_of_no_lt openTag (by decide) z hz
  have hsearch : searchThink
      (x ++ (openTag ++ (g1 ++ (closeTag ++ (y ++ (openTag ++ (g2 ++ (closeTag ++ z))))))))
      = some g1 := by
    simp only [searchThink, h1, h2]
  have hsub : subThink
      (x ++ (openTag ++ (g1 ++ (closeTag ++ (y ++ (openTag ++ (g2 ++ (closeTag ++ z))))))))
      = x ++ (y ++ z) := by
    rw [subThink_step h1 h2, subThink_step h3 h4, subThink_no_open h5]
  simp only [parseResponse, hsearch, hsub]

/-- Witness for c2_all_pairs_removed at a concrete two-pair response. -/
theorem c2_witness :
    parseResponse
        ("A".data ++ (openTag ++ ("r".data ++ (closeTag ++
          ("B".data ++ (openTag ++ ("s".data ++ (closeTag ++ "C".data))))))))
      = ("ABC".data, some "r".data) :=
  (c2_all_pairs_removed "A".data "r".data "B".data "s".data "C".data
    (by decide) (by decide) (by decide) (by decide) (by decide)).trans (by decide)

/-! ## Claim C5 -/

/-- Claim C5, counterexample: the key is the MD5 of the byte-name
concatenation, so the distinct pairs (bytes "ab", name "c") and
(bytes "a", name "bc") concatenate identically and share one key;
the keys of distinct pairs do not always differ. -/
theorem c5_counterexample :
    cache_key [97, 98] "c".data = cache_key [97] "bc".data ∧
      ¬ ([97, 98] = [97] ∧ "c".data = "bc".data) := by decide

/-- Claim C5 (amended): cache_key is deterministic and depends only on
the concatenation of the file bytes with the UTF-8 encoded name: any
two pairs with equal concatenations receive the identical key, so the
key does not separate every pair of distinct inputs. -/
theorem c5_key_from_concat (b1 b2 : List Nat) (n1 n2 : List Char)
    (h : b1 ++ utf8Encode n1 = b2 ++ utf8Encode n2) :
    cache_key b1 n1 = cache_key b2 n2 := by
  unfold cache_key
  rw [h]

/-- Witness for c5_key_from_concat at the colliding concrete pairs. -/
theorem c5_witness :
    [97, 98] ++ utf8Encode "c".data = [97] ++ utf8Encode "bc".data ∧
      cache_key [97, 98] "c".data = cache_key [97] "bc".data :=
  ⟨by decide, c5_key_from_concat [97, 98] [97] "c".data "bc".data (by decide)⟩

/-! ## Claim C1 -/

/-- Claim C1, counterexample: process_user_input (app.py 112) appends
the user message before the fallible query runs, so a turn whose
model invocation raises leaves the user message in the log: the log
is not in its pre-turn state. -/
theorem c1_counterexample :
    process_user_input (fun _ => Outcome.raised "model unavailable".data) true []
        "q".data (Outcome.ok [])
      = [⟨Role.user, Content.text "q".data⟩] ∧
      process_user_input (fun _ => Outcome.raised "model unavailable".data) true []
        "q".data (Outcome.ok [])
      ≠ ([] : List Message) := by decide

/-- Claim C1 (amended): a RAG turn on which the retrieval or the model
invocation raises appends exactly the one user message (added before
the fallible calls) and nothing else: no assistant, assistant_think
or retrieved_doc message is appended for the failed turn. -/
theorem c1_failed_turn (infer : List Char → Outcome (List Char))
    (log : List Message) (prompt : List Char) (search : Outcome (List Doc))
    (h : (∃ e, search = Outcome.raised e) ∨
      (∃ docs e, search = Outcome.ok docs ∧
        infer (fullPrompt prompt (some (getContext docs))) = Outcome.raised e)) :
    process_user_input infer true log prompt search
      = addMessage log .user (.text prompt) := by
  rcases h with ⟨e, rfl⟩ | ⟨docs, e, rfl, hinfer⟩
  · simp [process_user_input, process_rag_query]
  · simp [process_user_input, process_rag_query, hinfer]

/-- Witness for c1_failed_turn at a failing concrete model call. -/
theorem c1_witness :
    process_user_input (fun _ => Outcome.raised "down".data) true [] "hi".data
        (Outcome.ok []) = [⟨Role.user, Content.text "hi".data⟩] := by
  have h := c1_failed_turn (fun _ => Outcome.raised "down".data) [] "hi".data
    (Outcome.ok []) (Or.inr ⟨[], "down".data, rfl, rfl⟩)
  exact h.trans (by decide)

/-! ## Claim C6 -/

/-- Claim C6, counterexample: a completed RAG turn with a nonempty
reasoning segment but zero retrieved chunks appends three messages
(user, assistant, assistant_think), while the claim demands that the
assistant_think message appear only when reasoning and chunks both
existed, which would leave exactly the user and assistant messages. -/
theorem c6_counterexample :
    ¬ ∃ u a, process_user_input (fun _ => Outcome.ok "<think>r</think>ans".data)
        true [] "q".data (Outcome.ok [])
      = [⟨Role.user, Content.text u⟩, ⟨Role.assistant, Content.text a⟩] := by
  rintro ⟨u, a, h⟩
  have hlen : (process_user_input (fun _ => Outcome.ok "<think>r</think>ans".data)
      true [] "q".data (Outcome.ok [])).length = 3 := by decide
  rw [h] at hlen
  simp at hlen

/-- Claim C6 (amended): after one completed RAG turn the log gains, in
order: one user message, one assistant message, then one
assistant_think message iff a nonempty reasoning segment existed, then
one retrieved_doc message holding the ordered chunk texts iff
retrieved chunks existed — the two optional messages are independent
of each other. -/
theorem c6_turn_shape (infer : List Char → Outcome (List Char))
    (log : List Message) (prompt : List Char) (docs : List Doc)
    (raw : List Char)
    (hinfer : infer (fullPrompt prompt (some (getContext docs))) = Outcome.ok raw) :
    process_user_input infer true log prompt (Outcome.ok docs)
      = (addMessage log .user (.text prompt))
        ++ ([⟨.assistant, .text (parseResponse raw).1⟩]
          ++ (thinkTail (parseResponse raw).2 ++ docsTail (some docs))) := by
  simp only [process_user_input, process_rag_query, hinfer, if_true]
  rw [process_response_shape]

/-- Witness for c6_turn_shape at one concrete completed turn carrying
both a reasoning segment and one retrieved chunk. -/
theorem c6_witness :
    process_user_input (fun _ => Outcome.ok "<think>r</think>ans".data) true []
        "q".data (Outcome.ok [⟨"chunk one".data, []⟩])
      = [⟨Role.user, Content.text "q".data⟩,
         ⟨Role.assistant, Content.text "ans".data⟩,
         ⟨Role.assistantThink, Content.text "r".data⟩,
         ⟨Role.retrievedDoc, Content.texts ["chunk one".data]⟩] := by
  have h := c6_turn_shape (fun _ => Outcome.ok "<think>r</think>ans".data) []
    "q".data [⟨"chunk one".data, []⟩] "<think>r</think>ans".data rfl
  exact h.trans (by decide)

/-! ## Claim C4 -/

/-- Claim C4, counterexample: with an empty retrieval result the
constructed prompt is the plain-mode template of agent.py line 96,
which is not the template text the claim quotes from the spec (the
source text is Chinese and carries an extra weather-tool
instruction). -/
theorem c4_counterexample :
    fullPrompt "hi".data (some (getContext [])) ≠ specPlainTemplate "hi".data := by
  decide

/-- Claim C4 (amended): for every prompt, an empty retrieval result
gives the empty context, and the agent then constructs exactly the
plain-mode template of the source (agent.py 96) — never the RAG-mode
template with an empty context field; the source plain-mode template
differs from the template text the spec quotes. -/
theorem c4_empty_context_plain (prompt : List Char) :
    fullPrompt prompt (some (getContext [])) = plainModePrompt prompt ∧
      plainModePrompt prompt ≠ ragModePrompt (getContext []) prompt := by
  constructor
  · rfl
  · intro h
    have h1 : (plainModePrompt prompt).get? 1 = some '用' := rfl
    rw [h] at h1
    have h2 : (ragModePrompt (getContext []) prompt).get? 1 = some '检' := rfl
    rw [h2] at h1
    simp at h1

/-! ## Claim C3 -/

/-- Concrete external environment for the txt counterexample: the
splitter duplicates its input (so any chunking would be visible) and
decode maps bytes to their characters. -/
def envCE : ProcEnv :=
  { loadPdf := fun _ => Outcome.ok []
    split := fun docs => docs ++ docs
    decode := fun b => some (b.map Char.ofNat) }

/-- Claim C3, counterexample: a plain-text document whose pair misses
the cache is only decoded (document_processor.py 176-177): the result
is the raw text, the splitter is never applied, and nothing is stored
to the cache, which stays empty. -/
theorem c3_counterexample :
    cacheLookup [] (cache_key [104, 105] "a.txt".data) = none ∧
      process_file envCE true [] [104, 105] "a.txt".data
        = Outcome.ok (FileResult.textContent "hi".data, ([] : Cache)) := by decide

/-- Claim C3 (amended): on a cache miss only pdf documents run the
extract-chunk-store pipeline (and the store is skipped for an empty
chunk list); a plain-text document is decoded and returned with the
cache untouched, and any other kind returns the unsupported-type
message. -/
theorem c3_pipeline (env : ProcEnv) (cache : Cache) (content : List Nat)
    (name : List Char) (pages : List Doc) (s : List Char)
    (hload : env.loadPdf content = Outcome.ok pages)
    (hdec : env.decode content = some s)
    (hmiss : cacheLookup cache (cache_key content name) = none) :
    process_file env true cache content name =
      if isPdfName name then
        Outcome.ok (FileResult.textContent
            (joinSep "\n\n".data ((env.split pages).map Doc.page_content)),
          if (env.split pages).isEmpty then cache
          else cacheInsert cache (cache_key content name) (env.split pages))
      else if isTxtName name then
        Outcome.ok (FileResult.textContent s, cache)
      else
        Outcome.ok (FileResult.textContent ("不支持的文件类型: ".data ++ name), cache) := by
  by_cases hpdf : isPdfName name = true
  · simp only [process_file, process_pdf, hpdf, hmiss, hload, if_true]
    by_cases hsp : (env.split pages).isEmpty <;> simp [hsp]
  · by_cases htxt : isTxtName name = true
    · simp [process_file, hpdf, htxt, hdec]
    · simp [process_file, hpdf, htxt]

/-- Concrete external environment for the pdf witness. -/
def envW : ProcEnv :=
  { loadPdf := fun _ => Outcome.ok [⟨"page text".data, []⟩]
    split := fun docs => docs
    decode := fun _ => some [] }

/-- Witness for c3_pipeline at a concrete pdf upload missing the
cache: the chunks are computed and stored under the computed key. -/
theorem c3_witness :
    process_file envW true [] [1, 2, 3] "d.pdf".data
      = Outcome.ok (FileResult.textContent "page text".data,
          cacheInsert [] (cache_key [1, 2, 3] "d.pdf".data) [⟨"page text".data, []⟩]) := by
  have h := c3_pipeline envW [] [1, 2, 3] "d.pdf".data [⟨"page text".data, []⟩] []
    rfl rfl rfl
  exact h.trans (by decide)

/-! ## Claim C7 -/

/-- Concrete external environment whose pdf loading raises. -/
def envF : ProcEnv :=
  { loadPdf := fun _ => Outcome.raised "bad pdf".data
    split := fun docs => docs
    decode := fun b => some (b.map Char.ofNat) }

/-- Claim C7: a file whose processing raises contributes exactly one
failure report naming that file; the registry, document list and
cache are unchanged by it, and the remaining files of the batch are
processed from that unchanged state (ui_components.py 138-160,
try/except inside the per-file loop). -/
theorem c7_isolated_failure (env : ProcEnv) (st : BatchState)
    (f : UploadedFile) (rest : List UploadedFile) (e : List Char)
    (hnew : st.processed.contains f.name = false)
    (hfail : process_file env true st.cache f.content f.name = Outcome.raised e) :
    process_batch env st (f :: rest)
      = process_batch env
          (addReport { st with calls := st.calls ++ [f.name] } (.failure f.name e)) rest ∧
      (addReport { st with calls := st.calls ++ [f.name] } (.failure f.name e)).processed
        = st.processed ∧
      (addReport { st with calls := st.calls ++ [f.name] } (.failure f.name e)).all_docs
        = st.all_docs ∧
      (addReport { st with calls := st.calls ++ [f.name] } (.failure f.name e)).cache
        = st.cache := by
  refine ⟨?_, rfl, rfl, rfl⟩
  simp only [process_batch, hnew, Bool.false_eq_true, if_false, hfail]

/-- Witness for c7_isolated_failure: in a two-file batch whose first
file fails, the failure is reported for that file only and the second
file is still processed to success. -/
theorem c7_witness :
    process_batch envF
        { processed := [], all_docs := [], cache := [], reports := [], calls := [] }
        [⟨"x.pdf".data, [0]⟩, ⟨"y.txt".data, [104]⟩]
      = { processed := ["y.txt".data],
          all_docs := [⟨"h".data, [("source".data, "y.txt".data)]⟩],
          cache := [],
          reports := [Report.failure "x.pdf".data "处理文件失败: bad pdf".data,
                      Report.success "y.txt".data],
          calls := ["x.pdf".data, "y.txt".data] } := by
  have h := c7_isolated_failure envF
    { processed := [], all_docs := [], cache := [], reports := [], calls := [] }
    ⟨"x.pdf".data, [0]⟩ [⟨"y.txt".data, [104]⟩] "处理文件失败: bad pdf".data
    rfl (by decide)
  exact h.1.trans (by decide)

/-! ## Claim C8 -/

/-- Claim C8: a file whose name is already in the processed registry
is skipped as a warning, not an error: process_file is not called for
it (the call record is unchanged), the registry and the document list
are unchanged, and the batch continues with the remaining files
(ui_components.py 139, 159-160). -/
theorem c8_skip_processed (env : ProcEnv) (st : BatchState)
    (f : UploadedFile) (rest : List UploadedFile)
    (hdone : st.processed.contains f.name = true) :
    process_batch env st (f :: rest)
      = process_batch env (addReport st (.alreadyProcessed f.name)) rest ∧
      (addReport st (.alreadyProcessed f.name)).processed = st.processed ∧
      (addReport st (.alreadyProcessed f.name)).calls = st.calls ∧
      (addReport st (.alreadyProcessed f.name)).all_docs = st.all_docs := by
  refine ⟨?_, rfl, rfl, rfl⟩
  simp only [process_batch, hdone, if_true]

/-- Witness for c8_skip_processed at a concrete already-ingested
name. -/
theorem c8_witness :
    process_batch envF
        { processed := ["a.txt".data], all_docs := [], cache := [],
          reports := [], calls := [] }
        [⟨"a.txt".data, [1]⟩]
      = { processed := ["a.txt".data], all_docs := [], cache := [],
          reports := [Report.alreadyProcessed "a.txt".data], calls := [] } := by
  have h := c8_skip_processed envF
    { processed := ["a.txt".data], all_docs := [], cache := [],
      reports := [], calls := [] }
    ⟨"a.txt".data, [1]⟩ [] (by decide)
  exact h.1.trans (by decide)
